import Mathlib

/-!
Verification development for the bainbridge-now community-event pipeline.

The development shallowly embeds the normalization and storage layer of the
repository: the Event record (src/event.py, class Event), the SQLite-backed
store operations (Event.write_to_db and get_events_by_date_and_type), the
digest window computation (src/bainbridgenow.py, get_upcoming_friday), the
keyword filter of the ingestion coordinator (any_word_in / scrape_events),
and the adapter post-processing routines cited by the claims
(convert_llm_json_to_events in src/scraper_generic.py and
parse_bainbridge_events in src/scraper_custom.py).

Python datetimes are embedded as records of numeric fields; the ISO-8601
textual representation produced by datetime.isoformat and consumed by
datetime.fromisoformat is embedded as an explicit character-list printer and
parser, because the store keeps timestamps as TEXT and the SQL WHERE / ORDER
BY clauses compare that text by binary (byte) order.
-/

/-- Embedding of a (naive) Python datetime value: the fields year, month, day,
hour, minute, second, microsecond.  Python guarantees 1 <= year <= 9999 and
the usual field ranges; that guarantee is the `DateTime.Valid` predicate
below (day-of-month is bounded by 31 rather than by the exact month length,
a harmless superset). -/
structure DateTime where
  year : Nat
  month : Nat
  day : Nat
  hour : Nat
  minute : Nat
  second : Nat
  microsecond : Nat
deriving DecidableEq

/-- Field ranges a real Python datetime satisfies. -/
def DateTime.Valid (d : DateTime) : Prop :=
  1 ≤ d.year ∧ d.year ≤ 9999 ∧ 1 ≤ d.month ∧ d.month ≤ 12 ∧ 1 ≤ d.day ∧ d.day ≤ 31 ∧
    d.hour ≤ 23 ∧ d.minute ≤ 59 ∧ d.second ≤ 59 ∧ d.microsecond ≤ 999999

instance (d : DateTime) : Decidable d.Valid := by
  unfold DateTime.Valid; infer_instance

/-- The decimal digit characters used by Python's zero-padded formatting. -/
def digitChar (n : Nat) : Char :=
  match n with
  | 0 => '0' | 1 => '1' | 2 => '2' | 3 => '3' | 4 => '4'
  | 5 => '5' | 6 => '6' | 7 => '7' | 8 => '8' | _ => '9'

/-- Two-digit zero-padded decimal rendering (the width used by every
datetime.isoformat field except the year, which is two such blocks). -/
def pad2 (n : Nat) : List Char := [digitChar (n / 10), digitChar (n % 10)]

/-- The fractional-second suffix of datetime.isoformat: empty when the
microsecond field is zero, otherwise a dot followed by six digits. -/
def microChars (m : Nat) : List Char :=
  if m = 0 then []
  else '.' :: (pad2 (m / 10000) ++ (pad2 (m / 100 % 100) ++ pad2 (m % 100)))

/-- Embedding of datetime.isoformat for naive datetimes:
YYYY-MM-DDTHH:MM:SS followed by .ffffff exactly when microsecond is nonzero.
(Event.write_to_db stores exactly this text in the start_datetime and
end_datetime columns, src/event.py lines 159-164.) -/
def isoChars (d : DateTime) : List Char :=
  pad2 (d.year / 100) ++ (pad2 (d.year % 100) ++ ('-' :: (pad2 d.month ++ ('-' ::
    (pad2 d.day ++ ('T' :: (pad2 d.hour ++ (':' :: (pad2 d.minute ++ (':' ::
      (pad2 d.second ++ microChars d.microsecond)))))))))))

/-- datetime.isoformat as a Lean String. -/
def DateTime.isoformat (d : DateTime) : String := String.mk (isoChars d)

/-- Numeric value of a decimal digit character, none on a non-digit. -/
def digitVal (c : Char) : Option Nat :=
  if c = '0' then some 0 else if c = '1' then some 1 else if c = '2' then some 2
  else if c = '3' then some 3 else if c = '4' then some 4 else if c = '5' then some 5
  else if c = '6' then some 6 else if c = '7' then some 7 else if c = '8' then some 8
  else if c = '9' then some 9 else none

/-- Read a fixed-width two-digit decimal field. -/
def read2 : List Char → Option (Nat × List Char)
  | a :: b :: rest =>
    match digitVal a, digitVal b with
    | some x, some y => some (10 * x + y, rest)
    | _, _ => none
  | _ => none

/-- Consume one expected separator character. -/
def expectChar (c : Char) : List Char → Option (List Char)
  | a :: rest => if a = c then some rest else none
  | [] => none

/-- Read the optional fractional-second tail: end of input means microsecond
zero, otherwise a dot and six digits must close the input. -/
def readMicro : List Char → Option Nat
  | [] => some 0
  | c :: rest =>
    if c = '.' then
      match read2 rest with
      | some (u1, r1) =>
        match read2 r1 with
        | some (u2, r2) =>
          match read2 r2 with
          | some (u3, r3) => if r3 = [] then some (u1 * 10000 + u2 * 100 + u3) else none
          | none => none
        | none => none
      | none => none
    else none

/-- Embedding of datetime.fromisoformat on the strings this program stores:
the exact shape datetime.isoformat produces (get_events_by_date_and_type
re-parses the stored TEXT with fromisoformat, src/event.py lines 241-242). -/
def fromisoChars (l : List Char) : Option DateTime :=
  match read2 l with
  | none => none
  | some (y1, l) =>
  match read2 l with
  | none => none
  | some (y2, l) =>
  match expectChar '-' l with
  | none => none
  | some l =>
  match read2 l with
  | none => none
  | some (mo, l) =>
  match expectChar '-' l with
  | none => none
  | some l =>
  match read2 l with
  | none => none
  | some (dd, l) =>
  match expectChar 'T' l with
  | none => none
  | some l =>
  match read2 l with
  | none => none
  | some (hh, l) =>
  match expectChar ':' l with
  | none => none
  | some l =>
  match read2 l with
  | none => none
  | some (mi, l) =>
  match expectChar ':' l with
  | none => none
  | some l =>
  match read2 l with
  | none => none
  | some (ss, l) =>
  match readMicro l with
  | none => none
  | some micro =>
    if 1 ≤ 100 * y1 + y2 ∧ 100 * y1 + y2 ≤ 9999 ∧ 1 ≤ mo ∧ mo ≤ 12 ∧ 1 ≤ dd ∧ dd ≤ 31 ∧
        hh ≤ 23 ∧ mi ≤ 59 ∧ ss ≤ 59 ∧ micro ≤ 999999 then
      some ⟨100 * y1 + y2, mo, dd, hh, mi, ss, micro⟩
    else none

theorem digitVal_digitChar (n : Nat) (h : n < 10) : digitVal (digitChar n) = some n := by
  interval_cases n <;> rfl

theorem read2_pad2 (n : Nat) (h : n < 100) (rest : List Char) :
    read2 (pad2 n ++ rest) = some (n, rest) := by
  have h1 : n / 10 < 10 := by omega
  have h2 : n % 10 < 10 := by omega
  have hmod : 10 * (n / 10) + n % 10 = n := by omega
  simp [pad2, read2, digitVal_digitChar _ h1, digitVal_digitChar _ h2, hmod]

theorem expectChar_cons (c : Char) (rest : List Char) :
    expectChar c (c :: rest) = some rest := by
  simp [expectChar]

theorem read2_pad2_end (n : Nat) (h : n < 100) : read2 (pad2 n) = some (n, []) := by
  have := read2_pad2 n h []
  simpa using this

theorem readMicro_microChars (m : Nat) (h : m < 1000000) :
    readMicro (microChars m) = some m := by
  by_cases h0 : m = 0
  · simp [microChars, h0, readMicro]
  · have e1 : m / 10000 < 100 := by omega
    have e2 : m / 100 % 100 < 100 := by omega
    have e3 : m % 100 < 100 := by omega
    have hsum : m / 10000 * 10000 + (m / 100 % 100) * 100 + m % 100 = m := by omega
    simp only [microChars, h0, if_false, readMicro, read2_pad2 _ e1, read2_pad2 _ e2,
      read2_pad2_end _ e3]
    simp [hsum]

/-- Round trip: parsing the ISO text of a valid datetime recovers every
field exactly. -/
theorem fromiso_iso (d : DateTime) (h : d.Valid) :
    fromisoChars (isoChars d) = some d := by
  obtain ⟨h1, h2, h3, h4, h5, h6, h7, h8, h9, h10⟩ := h
  have hya : d.year / 100 < 100 := by omega
  have hyb : d.year % 100 < 100 := by omega
  have hmo : d.month < 100 := by omega
  have hdd : d.day < 100 := by omega
  have hhh : d.hour < 100 := by omega
  have hmi : d.minute < 100 := by omega
  have hss : d.second < 100 := by omega
  have hus : d.microsecond < 1000000 := by omega
  have hyr : 100 * (d.year / 100) + d.year % 100 = d.year := by omega
  simp only [isoChars, fromisoChars, read2_pad2 _ hya, read2_pad2 _ hyb,
    read2_pad2 _ hmo, read2_pad2 _ hdd, read2_pad2 _ hhh, read2_pad2 _ hmi,
    read2_pad2 _ hss, expectChar_cons, readMicro_microChars _ hus, hyr]
  simp only [if_pos (by omega : 1 ≤ d.year ∧ d.year ≤ 9999 ∧ 1 ≤ d.month ∧ d.month ≤ 12 ∧
    1 ≤ d.day ∧ d.day ≤ 31 ∧ d.hour ≤ 23 ∧ d.minute ≤ 59 ∧ d.second ≤ 59 ∧
    d.microsecond ≤ 999999)]

/-- The mixed-radix chronological key of a datetime: two datetimes compare
chronologically exactly as their keys compare. -/
def dtKey (d : DateTime) : Nat :=
  (((((d.year * 13 + d.month) * 32 + d.day) * 24 + d.hour) * 60 + d.minute) * 60
      + d.second) * 1000000 + d.microsecond

/-- Three-way byte comparison of character lists: SQLite's ordering of TEXT
values under the default BINARY collation (all stored text here is ASCII, so
byte order and code-point order agree).  The WHERE and ORDER BY clauses of
get_events_by_date_and_type compare the stored start_datetime column with
this order. -/
def charsCmp : List Char → List Char → Ordering
  | [], [] => .eq
  | [], _ :: _ => .lt
  | _ :: _, [] => .gt
  | a :: as, b :: bs => if a < b then .lt else if b < a then .gt else charsCmp as bs

/-- Non-strict text order, the comparison used for both bounds of the SQL
BETWEEN-style filter and for ORDER BY start_datetime. -/
def charsLe (x y : List Char) : Bool :=
  match charsCmp x y with
  | .gt => false
  | _ => true

theorem charsCmp_eq_iff : ∀ x y : List Char, charsCmp x y = .eq ↔ x = y := by
  intro x
  induction x with
  | nil => intro y; cases y <;> simp [charsCmp]
  | cons a as ih =>
    intro y
    cases y with
    | nil => simp [charsCmp]
    | cons b bs =>
      by_cases hab : a < b
      · simp [charsCmp, hab]
        intro h; exact absurd h (ne_of_lt hab)
      · by_cases hba : b < a
        · simp [charsCmp, hab, hba]
          intro h; exact absurd h.symm (ne_of_lt hba)
        · have hcc : a = b := le_antisymm (not_lt.mp hba) (not_lt.mp hab)
          subst hcc
          simp [charsCmp, hab, hba, ih bs]

theorem charsCmp_swap : ∀ x y : List Char, charsCmp y x = (charsCmp x y).swap := by
  intro x
  induction x with
  | nil => intro y; cases y <;> simp [charsCmp, Ordering.swap]
  | cons a as ih =>
    intro y
    cases y with
    | nil => simp [charsCmp, Ordering.swap]
    | cons b bs =>
      by_cases hab : a < b
      · simp [charsCmp, hab, asymm hab, Ordering.swap]
      · by_cases hba : b < a
        · simp [charsCmp, hab, hba, Ordering.swap]
        · simp [charsCmp, hab, hba, ih bs]

theorem charsCmp_lt_trans : ∀ x y z : List Char,
    charsCmp x y = .lt → charsCmp y z = .lt → charsCmp x z = .lt := by
  intro x
  induction x with
  | nil =>
    intro y z hxy hyz
    cases y with
    | nil => simp [charsCmp] at hxy
    | cons b bs =>
      cases z with
      | nil => simp [charsCmp] at hyz
      | cons c cs => simp [charsCmp]
  | cons a as ih =>
    intro y z hxy hyz
    cases y with
    | nil => simp [charsCmp] at hxy
    | cons b bs =>
      cases z with
      | nil => simp [charsCmp] at hyz
      | cons c cs =>
        simp only [charsCmp] at hxy hyz ⊢
        by_cases hab : a < b
        · by_cases hbc : b < c
          · simp [lt_trans hab hbc]
          · by_cases hcb : c < b
            · simp [charsCmp, hbc, hcb] at hyz
            · have : b = c := le_antisymm (not_lt.mp hcb) (not_lt.mp hbc)
              subst this
              simp [hab]
        · by_cases hba : b < a
          · simp [hab, hba] at hxy
          · have : a = b := le_antisymm (not_lt.mp hba) (not_lt.mp hab)
            subst this
            simp only [hab, lt_irrefl, if_false] at hxy
            by_cases hbc : a < c
            · simp [hbc]
            · by_cases hcb : c < a
              · simp [hbc, hcb] at hyz
              · simp only [hbc, hcb, if_false] at hyz ⊢
                exact ih bs cs hxy hyz

theorem charsLe_iff (x y : List Char) : charsLe x y = true ↔ charsCmp x y ≠ .gt := by
  unfold charsLe
  rcases h : charsCmp x y <;> simp [h]

theorem charsLe_total (x y : List Char) : charsLe x y = true ∨ charsLe y x = true := by
  rw [charsLe_iff, charsLe_iff, charsCmp_swap x y]
  rcases charsCmp x y <;> simp [Ordering.swap]

theorem charsLe_trans (x y z : List Char) (hxy : charsLe x y = true)
    (hyz : charsLe y z = true) : charsLe x z = true := by
  rw [charsLe_iff] at hxy hyz ⊢
  rcases hx : charsCmp x y with _ | _ | _
  · rcases hy : charsCmp y z with _ | _ | _
    · rw [charsCmp_lt_trans x y z hx hy]; simp
    · rw [(charsCmp_eq_iff y z).mp hy] at hx
      rw [hx]; simp
    · exact absurd hy hyz
  · rw [(charsCmp_eq_iff x y).mp hx]
    exact hyz
  · exact absurd hx hxy

theorem charsCmp_append (x y p q : List Char) (h : x.length = y.length) :
    charsCmp (x ++ p) (y ++ q) = (charsCmp x y).then (charsCmp p q) := by
  induction x generalizing y with
  | nil =>
    cases y with
    | nil => simp [charsCmp, Ordering.then]
    | cons b bs => simp at h
  | cons a as ih =>
    cases y with
    | nil => simp at h
    | cons b bs =>
      simp only [List.length_cons, Nat.add_right_cancel_iff] at h
      by_cases hab : a < b
      · simp [charsCmp, hab, Ordering.then]
      · by_cases hba : b < a
        · simp [charsCmp, hab, hba, Ordering.then]
        · simp [charsCmp, hab, hba, ih bs h]

theorem digitChar_lt_iff : ∀ x, x < 10 → ∀ y, y < 10 → (digitChar x < digitChar y ↔ x < y) := by
  decide

theorem charsCmp_pad2 (a b : Nat) (ha : a < 100) (hb : b < 100) :
    charsCmp (pad2 a) (pad2 b) = compare a b := by
  have da : a / 10 < 10 := by omega
  have db : b / 10 < 10 := by omega
  have ma : a % 10 < 10 := by omega
  have mb : b % 10 < 10 := by omega
  have hiHi := digitChar_lt_iff (a / 10) da (b / 10) db
  have hiHi2 := digitChar_lt_iff (b / 10) db (a / 10) da
  have hiLo := digitChar_lt_iff (a % 10) ma (b % 10) mb
  have hiLo2 := digitChar_lt_iff (b % 10) mb (a % 10) ma
  rcases lt_trichotomy a b with hab | hab | hab
  · rw [compare_lt_iff_lt.mpr hab]
    by_cases h1 : a / 10 < b / 10
    · simp [pad2, charsCmp, hiHi.mpr h1]
    · have hde : a / 10 = b / 10 := by omega
      have h2 : a % 10 < b % 10 := by omega
      simp [pad2, charsCmp, hde, hiLo.mpr h2]
  · subst hab
    rw [compare_eq_iff_eq.mpr rfl]
    simp [pad2, charsCmp]
  · rw [compare_gt_iff_gt.mpr hab]
    by_cases h1 : b / 10 < a / 10
    · have h1n : ¬ a / 10 < b / 10 := by omega
      simp [pad2, charsCmp, hiHi2.mpr h1, hiHi.not.mpr (by omega)]
    · have hde : a / 10 = b / 10 := by omega
      have h2 : b % 10 < a % 10 := by omega
      simp [pad2, charsCmp, hde, hiLo2.mpr h2, hiLo.not.mpr (by omega)]

/-- Composing two fixed-width comparisons is comparison of the combined
place values. -/
theorem then_compare (x1 y1 x2 y2 M : Nat) (hx2 : x2 < M) (hy2 : y2 < M) :
    (compare x1 y1).then (compare x2 y2) = compare (x1 * M + x2) (y1 * M + y2) := by
  rcases lt_trichotomy x1 y1 with h | h | h
  · rw [compare_lt_iff_lt.mpr h]
    have : x1 * M + x2 < y1 * M + y2 := by
      calc x1 * M + x2 < x1 * M + M := by omega
        _ = (x1 + 1) * M := by ring
        _ ≤ y1 * M := Nat.mul_le_mul_right M (by omega)
        _ ≤ y1 * M + y2 := by omega
    rw [compare_lt_iff_lt.mpr this]
    rfl
  · subst h
    rw [compare_eq_iff_eq.mpr rfl]
    have : (compare (x1 * M + x2) (x1 * M + y2)) = compare x2 y2 := by
      rcases lt_trichotomy x2 y2 with h2 | h2 | h2
      · rw [compare_lt_iff_lt.mpr h2, compare_lt_iff_lt.mpr (by omega : x1 * M + x2 < x1 * M + y2)]
      · subst h2; rw [compare_eq_iff_eq.mpr rfl, compare_eq_iff_eq.mpr rfl]
      · rw [compare_gt_iff_gt.mpr h2, compare_gt_iff_gt.mpr (by omega : x1 * M + y2 < x1 * M + x2)]
    rw [this]
    rfl
  · rw [compare_gt_iff_gt.mpr h]
    have : y1 * M + y2 < x1 * M + x2 := by
      calc y1 * M + y2 < y1 * M + M := by omega
        _ = (y1 + 1) * M := by ring
        _ ≤ x1 * M := Nat.mul_le_mul_right M (by omega)
        _ ≤ x1 * M + x2 := by omega
    rw [compare_gt_iff_gt.mpr this]
    rfl

theorem charsCmp_cons_same (c : Char) (x y : List Char) :
    charsCmp (c :: x) (c :: y) = charsCmp x y := by
  simp [charsCmp]

theorem charsCmp_micro (m1 m2 : Nat) (h1 : m1 < 1000000) (h2 : m2 < 1000000) :
    charsCmp (microChars m1) (microChars m2) = compare m1 m2 := by
  by_cases z1 : m1 = 0 <;> by_cases z2 : m2 = 0
  · subst z1; subst z2
    rw [compare_eq_iff_eq.mpr rfl]
    simp [microChars, charsCmp]
  · subst z1
    rw [compare_lt_iff_lt.mpr (by omega : 0 < m2)]
    simp [microChars, z2, charsCmp]
  · subst z2
    rw [compare_gt_iff_gt.mpr (by omega : 0 < m1)]
    simp [microChars, z1, charsCmp]
  · have e1a : m1 / 10000 < 100 := by omega
    have e1b : m1 / 100 % 100 < 100 := by omega
    have e1c : m1 % 100 < 100 := by omega
    have e2a : m2 / 10000 < 100 := by omega
    have e2b : m2 / 100 % 100 < 100 := by omega
    have e2c : m2 % 100 < 100 := by omega
    simp only [microChars, z1, z2, if_false]
    rw [charsCmp_cons_same,
      charsCmp_append _ _ _ _ (by simp [pad2]),
      charsCmp_append _ _ _ _ (by simp [pad2]),
      charsCmp_pad2 _ _ e1a e2a, charsCmp_pad2 _ _ e1b e2b, charsCmp_pad2 _ _ e1c e2c,
      then_compare _ _ _ _ 100 e1c e2c,
      then_compare _ _ _ _ 10000 (by omega) (by omega)]
    have v1 : m1 / 10000 * 10000 + (m1 / 100 % 100 * 100 + m1 % 100) = m1 := by omega
    have v2 : m2 / 10000 * 10000 + (m2 / 100 % 100 * 100 + m2 % 100) = m2 := by omega
    rw [v1, v2]

/-- Byte order of the stored ISO text coincides with chronological order of
the datetimes it encodes: this is the property the spec relies on when it
compares and sorts the TEXT column. -/
theorem charsCmp_iso (a b : DateTime) (ha : a.Valid) (hb : b.Valid) :
    charsCmp (isoChars a) (isoChars b) = compare (dtKey a) (dtKey b) := by
  obtain ⟨a1, a2, a3, a4, a5, a6, a7, a8, a9, a10⟩ := ha
  obtain ⟨b1, b2, b3, b4, b5, b6, b7, b8, b9, b10⟩ := hb
  unfold isoChars
  rw [charsCmp_append (pad2 (a.year / 100)) (pad2 (b.year / 100)) _ _ (by simp [pad2]),
    charsCmp_append (pad2 (a.year % 100)) (pad2 (b.year % 100)) _ _ (by simp [pad2]),
    charsCmp_cons_same,
    charsCmp_append (pad2 a.month) (pad2 b.month) _ _ (by simp [pad2]),
    charsCmp_cons_same,
    charsCmp_append (pad2 a.day) (pad2 b.day) _ _ (by simp [pad2]),
    charsCmp_cons_same,
    charsCmp_append (pad2 a.hour) (pad2 b.hour) _ _ (by simp [pad2]),
    charsCmp_cons_same,
    charsCmp_append (pad2 a.minute) (pad2 b.minute) _ _ (by simp [pad2]),
    charsCmp_cons_same,
    charsCmp_append (pad2 a.second) (pad2 b.second) _ _ (by simp [pad2]),
    charsCmp_pad2 _ _ (by omega) (by omega),
    charsCmp_pad2 _ _ (by omega) (by omega),
    charsCmp_pad2 _ _ (by omega) (by omega),
    charsCmp_pad2 _ _ (by omega) (by omega),
    charsCmp_pad2 _ _ (by omega) (by omega),
    charsCmp_pad2 _ _ (by omega) (by omega),
    charsCmp_pad2 _ _ (by omega) (by omega),
    charsCmp_micro _ _ (by omega) (by omega)]
  rw [then_compare a.second b.second a.microsecond b.microsecond 1000000
      (by omega) (by omega),
    then_compare a.minute b.minute (a.second * 1000000 + a.microsecond)
      (b.second * 1000000 + b.microsecond) 60000000 (by omega) (by omega),
    then_compare a.hour b.hour
      (a.minute * 60000000 + (a.second * 1000000 + a.microsecond))
      (b.minute * 60000000 + (b.second * 1000000 + b.microsecond)) 3600000000
      (by omega) (by omega),
    then_compare a.day b.day
      (a.hour * 3600000000 + (a.minute * 60000000 + (a.second * 1000000 + a.microsecond)))
      (b.hour * 3600000000 + (b.minute * 60000000 + (b.second * 1000000 + b.microsecond)))
      86400000000 (by omega) (by omega),
    then_compare a.month b.month
      (a.day * 86400000000 + (a.hour * 3600000000 +
        (a.minute * 60000000 + (a.second * 1000000 + a.microsecond))))
      (b.day * 86400000000 + (b.hour * 3600000000 +
        (b.minute * 60000000 + (b.second * 1000000 + b.microsecond)))) 2764800000000
      (by omega) (by omega),
    then_compare (a.year % 100) (b.year % 100)
      (a.month * 2764800000000 + (a.day * 86400000000 + (a.hour * 3600000000 +
        (a.minute * 60000000 + (a.second * 1000000 + a.microsecond)))))
      (b.month * 2764800000000 + (b.day * 86400000000 + (b.hour * 3600000000 +
        (b.minute * 60000000 + (b.second * 1000000 + b.microsecond))))) 35942400000000
      (by omega) (by omega),
    then_compare (a.year / 100) (b.year / 100)
      (a.year % 100 * 35942400000000 + (a.month * 2764800000000 +
        (a.day * 86400000000 + (a.hour * 3600000000 +
          (a.minute * 60000000 + (a.second * 1000000 + a.microsecond))))))
      (b.year % 100 * 35942400000000 + (b.month * 2764800000000 +
        (b.day * 86400000000 + (b.hour * 3600000000 +
          (b.minute * 60000000 + (b.second * 1000000 + b.microsecond))))))
      3594240000000000 (by omega) (by omega)]
  have ea : a.year / 100 * 3594240000000000 + (a.year % 100 * 35942400000000 +
      (a.month * 2764800000000 + (a.day * 86400000000 + (a.hour * 3600000000 +
        (a.minute * 60000000 + (a.second * 1000000 + a.microsecond)))))) = dtKey a := by
    simp only [dtKey]; omega
  have eb : b.year / 100 * 3594240000000000 + (b.year % 100 * 35942400000000 +
      (b.month * 2764800000000 + (b.day * 86400000000 + (b.hour * 3600000000 +
        (b.minute * 60000000 + (b.second * 1000000 + b.microsecond)))))) = dtKey b := by
    simp only [dtKey]; omega
  rw [ea, eb]

/-- The store's text comparison of two ISO timestamps is exactly the
chronological comparison of the datetimes. -/
theorem charsLe_iso (a b : DateTime) (ha : a.Valid) (hb : b.Valid) :
    charsLe (isoChars a) (isoChars b) = true ↔ dtKey a ≤ dtKey b := by
  rw [charsLe_iff, charsCmp_iso a b ha hb, compare_le_iff_le]

/-- Embedding of the Event record (src/event.py, Event.__init__): required
start_datetime, name, event_type, zip_code and optional end_datetime, url,
promoted, notes with the source's defaults.  start_datetime is declared as a
datetime in the source but Python does not enforce the annotation, and one
adapter passes None; the field is therefore embedded as an Option. -/
structure Event where
  start_datetime : Option DateTime
  name : String
  event_type : String
  zip_code : String
  end_datetime : Option DateTime := none
  url : Option String := none
  promoted : Bool := false
  notes : String := ""
deriving DecidableEq

/-- One row of the events table (schema created by Event.write_to_db):
timestamps as TEXT, promoted as INTEGER, end_datetime and url nullable.
The surrogate id column carries no information the program reads back and is
omitted. -/
structure Row where
  name : String
  start_datetime : String
  end_datetime : Option String
  url : Option String
  event_type : String
  zip_code : String
  promoted : Nat
  notes : String
deriving DecidableEq

/-- State of the database file: none while the events table has not been
created yet (fresh file), some rows afterwards, in insertion order. -/
def DbState : Type := Option (List Row)

/-- Stage at which sqlite3 raises during a write_to_db call, if any. -/
inductive SqliteFail where
  | connect
  | createTable
  | insertRow
  | commit
deriving DecidableEq

/-- How a Python call returns: normally, or with an uncaught exception. -/
inductive PyOutcome where
  | ok
  | raised (exn : String)
deriving DecidableEq

/-- The rows visible after CREATE TABLE IF NOT EXISTS ran. -/
def ensureTable (db : DbState) : List Row := db.getD []

/-- The INSERT parameter tuple of Event.write_to_db (src/event.py lines
152-171): timestamps via isoformat, promoted adapted by sqlite3 to the
integer 1 or 0, url and end_datetime NULL when absent. -/
def serializeRow (e : Event) (d : DateTime) : Row :=
  { name := e.name
    start_datetime := String.mk (isoChars d)
    end_datetime := e.end_datetime.map (fun de => String.mk (isoChars de))
    url := e.url
    event_type := e.event_type
    zip_code := e.zip_code
    promoted := if e.promoted then 1 else 0
    notes := e.notes }

/-- Embedding of Event.write_to_db (src/event.py lines 123-181).
The try block connects, creates the table if absent, inserts one row and
commits; sqlite3.Error and Exception are caught and only printed; the
finally block runs `if conn: conn.close()`.

Because the function never initialises conn before the try block, a failure
inside sqlite3.connect leaves conn unbound: the except clause prints the
error, and then the finally block itself raises UnboundLocalError, which
escapes to the caller.  A failure at any later stage is caught and the call
returns normally with nothing committed (CREATE TABLE runs in autocommit
mode, so the table itself persists once the CREATE statement succeeded).

An event whose start_datetime is None raises AttributeError while the
parameter tuple is being built (None has no isoformat), after the CREATE
TABLE statement but before the INSERT; the generic except swallows it. -/
def writeToDb (fail : Option SqliteFail) (e : Event) (db : DbState) : DbState × PyOutcome :=
  match fail with
  | some .connect => (db, .raised "UnboundLocalError")
  | some .createTable => (db, .ok)
  | some .insertRow => (some (ensureTable db), .ok)
  | some .commit => (some (ensureTable db), .ok)
  | none =>
    match e.start_datetime with
    | none => (some (ensureTable db), .ok)
    | some d => (some (ensureTable db ++ [serializeRow e d]), .ok)

/-- The WHERE clause start_datetime >= ? AND start_datetime <= ? of
get_events_by_date_and_type, on the stored TEXT under SQLite's binary
collation. -/
def inRange (s e : String) (r : Row) : Bool :=
  charsLe s.data r.start_datetime.data && charsLe r.start_datetime.data e.data

/-- The optional AND event_type = ? clause: appended only when the
event_type argument is truthy (src/event.py lines 218-223), so None and the
empty string both mean no filter. -/
def typeMatches (event_type : Option String) (r : Row) : Bool :=
  match event_type with
  | none => true
  | some t => if t = "" then true else r.event_type == t

/-- ORDER BY start_datetime on the stored TEXT. -/
def rowLe (r1 r2 : Row) : Prop :=
  charsLe r1.start_datetime.data r2.start_datetime.data = true

instance : DecidableRel rowLe := fun r1 r2 => by
  unfold rowLe; infer_instance

instance : IsTotal Row rowLe :=
  ⟨fun r1 r2 => charsLe_total r1.start_datetime.data r2.start_datetime.data⟩

instance : IsTrans Row rowLe :=
  ⟨fun r1 r2 r3 => charsLe_trans r1.start_datetime.data r2.start_datetime.data
    r3.start_datetime.data⟩

/-- Deserialization of one fetched row (src/event.py lines 230-254):
fromisoformat on the start text, fromisoformat on the end text when that is
truthy, bool() on the stored promoted integer.  none signals the ValueError
a malformed timestamp raises. -/
def parseRow (r : Row) : Option Event :=
  match fromisoChars r.start_datetime.data with
  | none => none
  | some sd =>
    match (match r.end_datetime with
           | none => some none
           | some es =>
             if es = "" then some none
             else match fromisoChars es.data with
                  | none => none
                  | some ed => some (some ed)) with
    | none => none
    | some ed =>
      some { start_datetime := some sd, end_datetime := ed, name := r.name, url := r.url,
             event_type := r.event_type, zip_code := r.zip_code,
             promoted := r.promoted != 0, notes := r.notes }

/-- The deserialization loop over the fetched rows: a row that fails to
parse raises inside the for loop, the generic except catches it, and the
list accumulated so far is returned. -/
def rowsToEvents : List Row → List Event
  | [] => []
  | r :: rs =>
    match parseRow r with
    | some ev => ev :: rowsToEvents rs
    | none => []

/-- Embedding of get_events_by_date_and_type (src/event.py lines 184-264).
conn is initialised to None before the try block, so every failure path is
caught, the finally block closes the connection only when one was opened,
and the function returns the events accumulated so far (empty on a failed
connect or on a missing events table). -/
def getEventsByDateAndType (connectFail : Bool) (db : DbState)
    (start_date end_date : DateTime) (event_type : Option String) :
    List Event × PyOutcome :=
  if connectFail then ([], .ok)
  else
    match db with
    | none => ([], .ok)
    | some rows =>
      let s := String.mk (isoChars start_date)
      let e := String.mk (isoChars end_date)
      let selected := rows.filter (fun r => inRange s e r && typeMatches event_type r)
      (rowsToEvents (List.insertionSort rowLe selected), .ok)

/-- Embedding of get_unique_event_types (src/bainbridgenow.py lines
138-169): SELECT DISTINCT event_type FROM events, empty list when the query
fails (in particular when the table does not exist); SQLite does not fix
the order of DISTINCT values, dedup is one admissible order. -/
def getUniqueEventTypes (db : DbState) : List String :=
  match db with
  | none => []
  | some rows => (rows.map (fun r => r.event_type)).dedup

/-- English month names used by strftime's %B directive. -/
def monthName (m : Nat) : String :=
  match m with
  | 1 => "January" | 2 => "February" | 3 => "March" | 4 => "April"
  | 5 => "May" | 6 => "June" | 7 => "July" | 8 => "August"
  | 9 => "September" | 10 => "October" | 11 => "November" | _ => "December"

/-- strftime %#I, the 12-hour clock hour without a leading zero. -/
def hour12 (h : Nat) : Nat := (h + 11) % 12 + 1

/-- strftime %p for the default locale. -/
def amPm (h : Nat) : String := if h < 12 then "AM" else "PM"

/-- strftime "%B %d, %Y, %#I:%M %p" as used for the start time in
Event.html (src/event.py line 84); the datetimes this program renders are
naive, and pytz localize leaves the wall-clock fields unchanged. -/
def startTimeStr (d : DateTime) : String :=
  monthName d.month ++ " " ++ String.mk (pad2 d.day) ++ ", " ++
    String.mk (pad2 (d.year / 100) ++ pad2 (d.year % 100)) ++ ", " ++
    toString (hour12 d.hour) ++ ":" ++ String.mk (pad2 d.minute) ++ " " ++ amPm d.hour

/-- strftime "%I:%M %p" (zero-padded hour) used for the end time. -/
def endTimeStr (d : DateTime) : String :=
  String.mk (pad2 (hour12 d.hour)) ++ ":" ++ String.mk (pad2 d.minute) ++ " " ++ amPm d.hour

/-- Embedding of Event.html (src/event.py lines 61-121) for the events this
pipeline renders (naive timestamps, where the timezone localization keeps
every displayed field).  A None start would raise in Python; the digest
only renders events deserialized by the query, whose start is always
present, so that branch is unreachable and returns the empty string. -/
def eventHtml (ev : Event) : String :=
  match ev.start_datetime with
  | none => ""
  | some sd =>
    let stime := startTimeStr sd
    let time_range :=
      match ev.end_datetime with
      | none => stime
      | some ed =>
        monthName sd.month ++ " " ++ String.mk (pad2 sd.day) ++ ", " ++
          String.mk (pad2 (sd.year / 100) ++ pad2 (sd.year % 100)) ++ " @ " ++
          toString (hour12 sd.hour) ++ ":" ++ String.mk (pad2 sd.minute) ++ " " ++
          amPm sd.hour ++ "  - " ++ endTimeStr ed
    let notes_html :=
      if ev.notes = "" then ""
      else "<br><strong>Notes:</strong> " ++ ev.notes ++ "</br>"
    let urlText := match ev.url with | some u => u | none => "None"
    "\n            <div>\n                <h2>" ++ ev.name ++
      "</h2>\n                <p>" ++ time_range ++
      "\n                <br>" ++ ev.zip_code ++
      "\n                " ++ notes_html ++
      "\n                <br><a href=\x22" ++ urlText ++
      "\x22 target=\x22_blank\x22>details</a></p>\n            </div>\n        "

/-- Python str.capitalize: first character upper-cased, the rest
lower-cased (ASCII for the category tags this program uses). -/
def capitalizeStr (s : String) : String :=
  match s.data with
  | [] => ""
  | c :: cs => String.mk (c.toUpper :: cs.map Char.toLower)

/-- One category section of the digest (src/bainbridgenow.py lines
177-187): query the window for the category and emit a heading plus one
fragment per event, or nothing at all when the query is empty. -/
def sectionHtml (db : DbState) (ws we : DateTime) (t : String) : String :=
  let upcoming := (getEventsByDateAndType false db ws we (some t)).1
  if upcoming.isEmpty then ""
  else "<h1>" ++ capitalizeStr t ++ " Events:</h1>" ++ String.join (upcoming.map eventHtml)

/-- The digest document (src/bainbridgenow.py lines 174-189): the html
shell around one section per distinct stored category, for the window
[ws, we]. -/
def digestHtml (db : DbState) (ws we : DateTime) : String :=
  "<html>" ++ String.join ((getUniqueEventTypes db).map (sectionHtml db ws we)) ++ "</html>"

/-- Embedding of a Python datetime for the calendar arithmetic in
src/bainbridgenow.py: the date as its proleptic Gregorian ordinal
(date.toordinal, day 1 = 0001-01-01) plus the time-of-day fields.
timedelta(days=k) adds k to the ordinal, and date.weekday is
(ordinal + 6) % 7 with Monday = 0 (0001-01-01 was a Monday). -/
structure PyDateTime where
  toordinal : Nat
  hour : Nat
  minute : Nat
  second : Nat
  microsecond : Nat
deriving DecidableEq

/-- datetime.weekday: Monday is 0, Friday is 4. -/
def PyDateTime.weekday (d : PyDateTime) : Int := ((d.toordinal : Int) + 6) % 7

/-- today + timedelta(days = n). -/
def addDays (d : PyDateTime) (n : Nat) : PyDateTime :=
  { d with toordinal := d.toordinal + n }

/-- Embedding of get_upcoming_friday (src/bainbridgenow.py lines 11-21):
days_until_friday = (4 - today.weekday() + 7) % 7 (the if branch reassigns
0 to 0 and is a no-op), today + timedelta(days=days_until_friday), then
replace(hour=0, minute=0, second=0, microsecond=0).  Python's % on the
positive literal 7 is Int.emod here. -/
def getUpcomingFriday (today : PyDateTime) : PyDateTime :=
  let days_until_friday : Int := (4 - today.weekday + 7) % 7
  { toordinal := today.toordinal + days_until_friday.toNat,
    hour := 0, minute := 0, second := 0, microsecond := 0 }

/-- The digest window of the main script (src/bainbridgenow.py lines
177-182): from get_upcoming_friday() through get_upcoming_friday() +
timedelta(days=8). -/
def digestWindow (today : PyDateTime) : PyDateTime × PyDateTime :=
  (getUpcomingFriday today, addDays (getUpcomingFriday today) 8)

/-- Python's "needle in haystack" on strings: contiguous substring test,
here on character lists. -/
def listSub (w : List Char) : List Char → Bool
  | [] => w.isEmpty
  | c :: rest => w.isPrefixOf (c :: rest) || listSub w rest

/-- Embedding of any_word_in (src/bainbridgenow.py lines 24-28): scan the
word list and return True on the first word contained in the phrase. -/
def anyWordIn (phrase : String) (words : List String) : Bool :=
  match words with
  | [] => false
  | w :: ws => if listSub w.data phrase.data then true else anyWordIn phrase ws

/-- Python str.lower (ASCII, which covers every name and keyword this
program filters). -/
def pyLower (s : String) : String := String.mk (s.data.map Char.toLower)

/-- The Kenston Schools keyword filter of scrape_events
(src/bainbridgenow.py lines 59-73): keep the events whose lower-cased name
contains one of the filter words, and tag the survivors with the SCHOOL
category and the 44023 zip code. -/
def kenstonFilter (filters : List String) (events : List Event) : List Event :=
  match events with
  | [] => []
  | e :: es =>
    if anyWordIn (pyLower e.name) filters then
      { e with event_type := "SCHOOL", zip_code := "44023" } :: kenstonFilter filters es
    else kenstonFilter filters es

/-- The filtering the spec describes, stated in the spec's own words: the
name contains the keyword as a case-insensitive substring (both sides
lower-cased before the substring test).  Kept distinct from the code's
anyWordIn, which lower-cases only the name, so that the two can be
compared. -/
def specCaseInsensitiveKeep (keyword name : String) : Bool :=
  listSub (pyLower keyword).data (pyLower name).data

/-- The keyword parameters accepted by Event.__init__ (src/event.py lines
26-36).  There is no location parameter. -/
def eventInitParams : List String :=
  ["start_datetime", "name", "event_type", "zip_code", "end_datetime", "url",
   "promoted", "notes"]

/-- Python's keyword-argument check for a call Event(**kwargs): a keyword
that is not a parameter of __init__ raises TypeError before the body runs;
otherwise the call returns the record the body would build. -/
def eventInitKw (kwargNames : List String) (value : Event) : Except String Event :=
  if kwargNames.all (fun k => eventInitParams.contains k) then .ok value
  else .error "TypeError"

/-- datetime.min, the sentinel convert_llm_json_to_events substitutes for a
missing start (src/scraper_generic.py lines 193-197). -/
def datetimeMin : DateTime := ⟨1, 1, 1, 0, 0, 0, 0⟩

/-- One item of the LLM extractor's JSON payload (the fields
convert_llm_json_to_events reads). -/
structure LlmItem where
  title : Option String
  url : Option String
  zip_code : Option String
  location : Option String
  start_datetime : Option String
  end_datetime : Option String

/-- Per-item body of convert_llm_json_to_events (src/scraper_generic.py
lines 178-213): defaults for title/url/zip, datetime.min when the start
string is missing or empty, fromisoformat otherwise, and then the
Event(..., location=location) constructor call; the per-item try/except
turns any raised error (a ValueError from fromisoformat, or the TypeError
from the location keyword) into a skipped item. -/
def convertLlmItem (item : LlmItem) (page_url : String) : Except String Event :=
  let name := item.title.getD "No Title"
  let url := match item.url with | none => page_url | some u => u
  let zip_code := match item.zip_code with
    | none => "N/A"
    | some z => if z = "" then "N/A" else z
  match (match item.start_datetime with
         | none => some datetimeMin
         | some s => if s = "" then some datetimeMin else fromisoChars s.data) with
  | none => .error "ValueError"
  | some start_dt =>
  match (match item.end_datetime with
         | none => some (Option.none (α := DateTime))
         | some s =>
           if s = "" then some none
           else match fromisoChars s.data with
                | none => none
                | some ed => some (some ed)) with
  | none => .error "ValueError"
  | some end_dt =>
    eventInitKw
      ["start_datetime", "end_datetime", "name", "url", "event_type", "zip_code",
       "location"]
      { start_datetime := some start_dt, end_datetime := end_dt, name := name,
        url := some url, event_type := "COMMUNITY", zip_code := zip_code,
        promoted := false, notes := "" }

/-- Embedding of convert_llm_json_to_events: the items converted in order,
with the errors of a single item swallowed by its try/except. -/
def convertLlmJsonToEvents (items : List LlmItem) (page_url : String) : List Event :=
  match items with
  | [] => []
  | it :: rest =>
    match convertLlmItem it page_url with
    | .ok e => e :: convertLlmJsonToEvents rest page_url
    | .error _ => convertLlmJsonToEvents rest page_url

/-- One child element of the Bainbridge Historical Society event container,
carrying the attributes parse_bainbridge_events reads: tag name, text
content, style attribute, and the text of the first nested bold element
when there is one. -/
structure HtmlChild where
  tag : String
  text : String
  style : String
  boldText : Option String

/-- Python str.strip. -/
def pyStrip (s : String) : String := s.trim

/-- split(".")[0]: the text before the first dot. -/
def takeUntilDot (s : String) : String :=
  String.mk (s.data.takeWhile (fun c => c ≠ '.'))

/-- The Event(...) constructor call of parse_bainbridge_events
(src/scraper_custom.py lines 189-196), which passes a location keyword.
As Event.__init__ has no location parameter the call raises TypeError
before any record exists; the record value below is therefore dead code
(its start would otherwise be the ISO string or None that parse_datetime
produced, a value of the wrong type for the field). -/
def mkBainbridgeEvent (_start : Option String) (title url : String) : Except String Event :=
  eventInitKw ["start_datetime", "name", "url", "event_type", "zip_code", "location"]
    { start_datetime := none, end_datetime := none, name := title, url := some url,
      event_type := "COMMUNITY", zip_code := "44023", promoted := false, notes := "" }

/-- Embedding of the scan loop of parse_bainbridge_events
(src/scraper_custom.py lines 150-201) over the container's children: stop
at a PAST EVENT marker, skip anything that is not an uncentered h4 with a
non-empty title, otherwise consume up to two following p elements (start
datetime and subtitle) and construct the Event.  parseDt abstracts
parse_datetime together with its try/except (none = parse failure).
An exception from the construction propagates: this function has no
try/except of its own. -/
def parseBBFuel (url : String) (parseDt : String → Option String) :
    Nat → List HtmlChild → Except String (List Event)
  | _, [] => .ok []
  | 0, _ => .ok []
  | fuel + 1, el :: rest =>
    if (pyStrip el.text).startsWith "PAST EVENT" then .ok []
    else if el.tag = "h4" && !(listSub "center".data el.style.data) then
      let title := pyStrip el.text
      if title = "" then parseBBFuel url parseDt fuel rest
      else
        match rest with
        | [] =>
          match mkBainbridgeEvent none title url with
          | .error m => .error m
          | .ok ev => .ok [ev]
        | p1 :: r1 =>
          if p1.tag = "p" then
            match r1 with
            | [] =>
              match mkBainbridgeEvent (parseDt (pyStrip p1.text)) title url with
              | .error m => .error m
              | .ok ev => .ok [ev]
            | p2 :: r2 =>
              if p2.tag = "p" then
                let title2 := match p2.boldText with
                  | some b => title ++ ": " ++ takeUntilDot (pyStrip b)
                  | none => title
                match mkBainbridgeEvent (parseDt (pyStrip p1.text)) title2 url with
                | .error m => .error m
                | .ok ev =>
                  match parseBBFuel url parseDt fuel r2 with
                  | .error m => .error m
                  | .ok evs => .ok (ev :: evs)
              else
                match mkBainbridgeEvent (parseDt (pyStrip p1.text)) title url with
                | .error m => .error m
                | .ok ev =>
                  match parseBBFuel url parseDt fuel r1 with
                  | .error m => .error m
                  | .ok evs => .ok (ev :: evs)
          else
            match mkBainbridgeEvent none title url with
            | .error m => .error m
            | .ok ev =>
              match parseBBFuel url parseDt fuel rest with
              | .error m => .error m
              | .ok evs => .ok (ev :: evs)
    else parseBBFuel url parseDt fuel rest

/-- parse_bainbridge_events over a container with the given children: the
loop runs with enough fuel for every iteration (each iteration consumes at
least one child, so the length of the list is enough). -/
def parseBainbridgeEvents (url : String) (parseDt : String → Option String)
    (children : List HtmlChild) : Except String (List Event) :=
  parseBBFuel url parseDt children.length children

theorem eventInitKw_location (names : List String) (h : "location" ∈ names) (v : Event) :
    eventInitKw names v = .error "TypeError" := by
  unfold eventInitKw
  rw [if_neg]
  intro hall
  rw [List.all_eq_true] at hall
  have hc := hall "location" h
  exact absurd hc (by decide)

theorem mkBainbridgeEvent_err (s : Option String) (t u : String) :
    mkBainbridgeEvent s t u = .error "TypeError" := by
  unfold mkBainbridgeEvent
  exact eventInitKw_location _ (by simp) _

theorem convertLlmItem_not_ok (it : LlmItem) (u : String) (e : Event) :
    convertLlmItem it u ≠ .ok e := by
  intro h
  unfold convertLlmItem at h
  repeat' split at h
  all_goals
    first
    | (rw [eventInitKw_location _ (by simp) _] at h; simp at h)
    | simp at h

theorem convertLlm_empty (items : List LlmItem) (u : String) :
    convertLlmJsonToEvents items u = [] := by
  induction items with
  | nil => rfl
  | cons it rest ih =>
    unfold convertLlmJsonToEvents
    rcases hc : convertLlmItem it u with m | v
    · simpa using ih
    · exact absurd hc (convertLlmItem_not_ok it u v)

theorem parseBBFuel_result (url : String) (parseDt : String → Option String)
    (fuel : Nat) : ∀ l : List HtmlChild,
    parseBBFuel url parseDt fuel l = .ok [] ∨
      parseBBFuel url parseDt fuel l = .error "TypeError" := by
  induction fuel with
  | zero =>
    intro l
    cases l <;> simp [parseBBFuel]
  | succ fuel ih =>
    intro l
    cases l with
    | nil => simp [parseBBFuel]
    | cons el rest =>
      simp only [parseBBFuel, mkBainbridgeEvent_err]
      repeat' split
      all_goals first | exact ih _ | simp

theorem parseBainbridge_result (url : String) (parseDt : String → Option String)
    (l : List HtmlChild) :
    parseBainbridgeEvents url parseDt l = .ok [] ∨
      parseBainbridgeEvents url parseDt l = .error "TypeError" := by
  unfold parseBainbridgeEvents
  exact parseBBFuel_result url parseDt l.length l

/-- A datetime produced by the parser satisfies all the Python field
bounds (the parser checks them). -/
theorem fromiso_valid (l : List Char) (d : DateTime) (h : fromisoChars l = some d) :
    d.Valid := by
  unfold fromisoChars at h
  repeat' split at h
  all_goals simp only [Option.some.injEq, reduceCtorEq] at h
  subst h
  unfold DateTime.Valid
  dsimp only
  omega

theorem isoChars_ne_nil (d : DateTime) : isoChars d ≠ [] := by
  simp [isoChars, pad2]

/-- Reading back the row that write_to_db serialized for an event recovers
the event, timestamp fields included. -/
theorem parseRow_serializeRow (e : Event) (d : DateTime) (hd : d.Valid)
    (hend : ∀ de, e.end_datetime = some de → de.Valid) :
    parseRow (serializeRow e d) = some { e with start_datetime := some d } := by
  obtain ⟨s0, n0, t0, z0, en0, u0, p0, no0⟩ := e
  unfold parseRow serializeRow
  dsimp only
  rw [fromiso_iso d hd]
  cases en0 with
  | none =>
    cases p0 <;> simp
  | some de =>
    have hv := hend de rfl
    have hne : String.mk (isoChars de) ≠ "" := by
      intro hcontra
      apply isoChars_ne_nil de
      have hdata : (String.mk (isoChars de)).data = ("" : String).data := by rw [hcontra]
      simpa using hdata
    simp only [Option.map_some']
    rw [if_neg hne]
    try dsimp only
    rw [fromiso_iso de hv]
    cases p0 <;> simp

/-- When every row parses, the deserialization loop never stops early. -/
theorem rowsToEvents_eq_filterMap (rows : List Row)
    (h : ∀ r ∈ rows, (parseRow r).isSome) :
    rowsToEvents rows = rows.filterMap parseRow := by
  induction rows with
  | nil => rfl
  | cons r rs ih =>
    have hr := h r (by simp)
    rcases hp : parseRow r with _ | ev
    · rw [hp] at hr; simp at hr
    · simp only [rowsToEvents, hp, List.filterMap_cons]
      rw [ih (fun r hm => h r (by simp [hm]))]

/-- Rows as write_to_db produces them: a canonical ISO start and an absent
or canonical ISO end. -/
def CanonicalRow (r : Row) : Prop :=
  (∃ d, d.Valid ∧ r.start_datetime = String.mk (isoChars d)) ∧
    (r.end_datetime = none ∨ ∃ d2, d2.Valid ∧ r.end_datetime = some (String.mk (isoChars d2)))

theorem canonicalRow_parse (r : Row) (h : CanonicalRow r) : (parseRow r).isSome := by
  obtain ⟨⟨d, hv, hs⟩, hend⟩ := h
  unfold parseRow
  rw [hs]
  dsimp only
  rw [fromiso_iso d hv]
  rcases hend with he | ⟨d2, hv2, he⟩
  · rw [he]; simp
  · rw [he]
    have hne : String.mk (isoChars d2) ≠ "" := by
      intro hcontra
      apply isoChars_ne_nil d2
      have hdata : (String.mk (isoChars d2)).data = ("" : String).data := by rw [hcontra]
      simpa using hdata
    try dsimp only
    rw [if_neg hne]
    try dsimp only
    rw [fromiso_iso d2 hv2]
    simp

theorem mk_data (l : List Char) : (String.mk l).data = l := rfl

/-- Chronological key of a deserialized event (0 for the absent-start case
that deserialization never produces). -/
def evKey (ev : Event) : Nat :=
  match ev.start_datetime with
  | some d => dtKey d
  | none => 0

theorem parseRow_start (r : Row) (ev : Event) (h : parseRow r = some ev) :
    ∃ sd, fromisoChars r.start_datetime.data = some sd ∧ ev.start_datetime = some sd := by
  unfold parseRow at h
  repeat' split at h
  all_goals simp only [Option.some.injEq, reduceCtorEq] at h
  subst h
  exact ⟨_, by assumption, rfl⟩

theorem rowLe_key (r1 r2 : Row) (h : rowLe r1 r2) (c1 : CanonicalRow r1)
    (c2 : CanonicalRow r2) (ev1 ev2 : Event) (h1 : parseRow r1 = some ev1)
    (h2 : parseRow r2 = some ev2) : evKey ev1 ≤ evKey ev2 := by
  obtain ⟨⟨d1, hv1, hs1⟩, _⟩ := c1
  obtain ⟨⟨d2, hv2, hs2⟩, _⟩ := c2
  obtain ⟨sd1, hp1, he1⟩ := parseRow_start _ _ h1
  obtain ⟨sd2, hp2, he2⟩ := parseRow_start _ _ h2
  rw [hs1, mk_data, fromiso_iso d1 hv1] at hp1
  rw [hs2, mk_data, fromiso_iso d2 hv2] at hp2
  obtain rfl : d1 = sd1 := by simpa using hp1
  obtain rfl : d2 = sd2 := by simpa using hp2
  unfold rowLe at h
  rw [hs1, hs2, mk_data, mk_data] at h
  have hk := (charsLe_iso d1 d2 hv1 hv2).mp h
  simp [evKey, he1, he2, hk]

theorem rowsToEvents_pairwise (rows : List Row) (hp : List.Pairwise rowLe rows)
    (hc : ∀ r ∈ rows, CanonicalRow r) :
    List.Pairwise (fun a b => evKey a ≤ evKey b) (rowsToEvents rows) := by
  induction rows with
  | nil => simp [rowsToEvents]
  | cons r rs ih =>
    rcases List.pairwise_cons.mp hp with ⟨hr, hps⟩
    have hcr := hc r (by simp)
    have hsome := canonicalRow_parse r hcr
    rcases hpr : parseRow r with _ | ev
    · rw [hpr] at hsome; simp at hsome
    · simp only [rowsToEvents, hpr]
      rw [List.pairwise_cons]
      constructor
      · intro b hb
        rw [rowsToEvents_eq_filterMap rs
          (fun x hx => canonicalRow_parse x (hc x (by simp [hx])))] at hb
        rcases List.mem_filterMap.mp hb with ⟨r2, hr2m, hr2p⟩
        exact rowLe_key r r2 (hr r2 hr2m) hcr (hc r2 (by simp [hr2m])) ev b hpr hr2p
      · exact ih hps (fun x hx => hc x (by simp [hx]))

/-- Membership in a query result, for a store whose rows are canonical (as
every row write_to_db produces is): exactly the rows in the text range with
the requested type, deserialized. -/
theorem query_mem_iff (rows : List Row) (qs qe : DateTime) (et : Option String)
    (ev : Event) (hc : ∀ r ∈ rows, CanonicalRow r) :
    ev ∈ (getEventsByDateAndType false (some rows) qs qe et).1 ↔
      ∃ r ∈ rows, inRange (String.mk (isoChars qs)) (String.mk (isoChars qe)) r = true ∧
        typeMatches et r = true ∧ parseRow r = some ev := by
  unfold getEventsByDateAndType
  simp only [Bool.false_eq_true, if_false]
  have hmem : ∀ r : Row, r ∈ List.insertionSort rowLe
      (rows.filter (fun r => inRange (String.mk (isoChars qs)) (String.mk (isoChars qe)) r &&
        typeMatches et r)) ↔ r ∈ rows ∧
          (inRange (String.mk (isoChars qs)) (String.mk (isoChars qe)) r = true ∧
            typeMatches et r = true) := by
    intro r
    rw [List.mem_insertionSort, List.mem_filter, Bool.and_eq_true]
  rw [rowsToEvents_eq_filterMap _
    (fun r hr => canonicalRow_parse r (hc r ((hmem r).mp hr).1))]
  rw [List.mem_filterMap]
  constructor
  · rintro ⟨r, hr, hp⟩
    obtain ⟨hrm, hir, htm⟩ := (hmem r).mp hr
    exact ⟨r, hrm, hir, htm, hp⟩
  · rintro ⟨r, hrm, hir, htm, hp⟩
    exact ⟨r, (hmem r).mpr ⟨hrm, hir, htm⟩, hp⟩

/-- Query results are non-decreasing by start timestamp. -/
theorem query_pairwise (rows : List Row) (qs qe : DateTime) (et : Option String)
    (hc : ∀ r ∈ rows, CanonicalRow r) :
    List.Pairwise (fun a b => evKey a ≤ evKey b)
      ((getEventsByDateAndType false (some rows) qs qe et).1) := by
  unfold getEventsByDateAndType
  simp only [Bool.false_eq_true, if_false]
  apply rowsToEvents_pairwise
  · exact List.sorted_insertionSort rowLe _
  · intro r hr
    rw [List.mem_insertionSort, List.mem_filter] at hr
    exact hc r hr.1

theorem serializeRow_canonical (e : Event) (d : DateTime) (hv : d.Valid)
    (hend : ∀ de, e.end_datetime = some de → de.Valid) :
    CanonicalRow (serializeRow e d) := by
  constructor
  · exact ⟨d, hv, rfl⟩
  · rcases he : e.end_datetime with _ | de
    · left; simp [serializeRow, he]
    · right
      exact ⟨de, hend de he, by simp [serializeRow, he]⟩

/-- A fully-specified sample event (every optional field present). -/
def wEvent : Event :=
  { start_datetime := some ⟨2025, 9, 5, 18, 0, 0, 0⟩, name := "Fall Theater Night",
    event_type := "SCHOOL", zip_code := "44023",
    end_datetime := some ⟨2025, 9, 5, 20, 0, 0, 0⟩, url := some "https://example.org/a",
    promoted := true, notes := "tickets at door" }

/-- The three events of the spec's end-to-end query scenario. -/
def eventA : Event :=
  { start_datetime := some ⟨2025, 9, 5, 18, 0, 0, 0⟩, name := "A", event_type := "SCHOOL",
    zip_code := "44023" }

def eventB : Event :=
  { start_datetime := some ⟨2025, 9, 6, 10, 0, 0, 0⟩, name := "B", event_type := "SCHOOL",
    zip_code := "44023" }

def eventC : Event :=
  { start_datetime := some ⟨2025, 9, 12, 9, 0, 0, 0⟩, name := "C", event_type := "PARK",
    zip_code := "44023" }

/-- The store after inserting A, B, C into a fresh database. -/
def dbABC : DbState :=
  (writeToDb none eventC (writeToDb none eventB (writeToDb none eventA none).1).1).1

/-- C1: for every Event with all fields specified, write_to_db followed by
get_events_by_date_and_type over a range covering its start timestamp with
its exact event_type returns a record equal to the original in every field
(timestamps included, since the ISO text round-trips exactly).  The store
may already hold rows, provided they are rows write_to_db can have produced
(canonical ISO text). -/
theorem claim1_insert_query_roundtrip (e : Event) (d de : DateTime) (u : String)
    (db : DbState) (qs qe : DateTime)
    (hstart : e.start_datetime = some d) (hv : d.Valid)
    (hde : e.end_datetime = some de) (hvde : de.Valid)
    (hurl : e.url = some u)
    (hqs : qs.Valid) (hqe : qe.Valid)
    (hlo : dtKey qs ≤ dtKey d) (hhi : dtKey d ≤ dtKey qe)
    (hdb : ∀ r ∈ ensureTable db, CanonicalRow r) :
    e ∈ (getEventsByDateAndType false (writeToDb none e db).1 qs qe (some e.event_type)).1 := by
  have hw : (writeToDb none e db).1 = some (ensureTable db ++ [serializeRow e d]) := by
    simp [writeToDb, hstart]
  rw [hw]
  have hend : ∀ x, e.end_datetime = some x → x.Valid := by
    intro x hx
    rw [hde] at hx
    obtain rfl : de = x := by simpa using hx
    exact hvde
  have hcanon : ∀ r ∈ ensureTable db ++ [serializeRow e d], CanonicalRow r := by
    intro r hr
    rcases List.mem_append.mp hr with h1 | h2
    · exact hdb r h1
    · obtain rfl : r = serializeRow e d := by simpa using h2
      exact serializeRow_canonical e d hv hend
  rw [query_mem_iff _ _ _ _ _ hcanon]
  refine ⟨serializeRow e d, by simp, ?_, ?_, ?_⟩
  · unfold inRange serializeRow
    dsimp only
    rw [Bool.and_eq_true]
    exact ⟨(charsLe_iso qs d hqs hv).mpr hlo, (charsLe_iso d qe hv hqe).mpr hhi⟩
  · unfold typeMatches serializeRow
    dsimp only
    split
    · rfl
    · simp
  · rw [parseRow_serializeRow e d hv hend]
    obtain ⟨s0, n0, t0, z0, en0, u0, p0, no0⟩ := e
    simp at hstart
    simp [hstart]

theorem claim1_witness :
    wEvent ∈ (getEventsByDateAndType false (writeToDb none wEvent (some [])).1
      ⟨2025, 9, 5, 0, 0, 0, 0⟩ ⟨2025, 9, 8, 0, 0, 0, 0⟩ (some wEvent.event_type)).1 :=
  claim1_insert_query_roundtrip wEvent ⟨2025, 9, 5, 18, 0, 0, 0⟩ ⟨2025, 9, 5, 20, 0, 0, 0⟩
    "https://example.org/a" (some []) ⟨2025, 9, 5, 0, 0, 0, 0⟩ ⟨2025, 9, 8, 0, 0, 0, 0⟩
    rfl (by decide) rfl (by decide) rfl (by decide) (by decide) (by decide) (by decide)
    (fun r hr => absurd hr (by simp [ensureTable]))

/-- C4: on any store whose rows write_to_db can have produced, a query
returns exactly the rows whose stored start text lies in the inclusive
[start, end] range and matches the requested type when one is given, in
non-decreasing start-timestamp order; in particular the spec's three-event
scenario returns [A, B] for the unfiltered window and [] for type PARK. -/
theorem claim4_query_contract :
    (∀ (rows : List Row) (qs qe : DateTime) (et : Option String) (ev : Event),
      (∀ r ∈ rows, CanonicalRow r) →
      (ev ∈ (getEventsByDateAndType false (some rows) qs qe et).1 ↔
        ∃ r ∈ rows, inRange (String.mk (isoChars qs)) (String.mk (isoChars qe)) r = true ∧
          typeMatches et r = true ∧ parseRow r = some ev)) ∧
    (∀ (rows : List Row) (qs qe : DateTime) (et : Option String),
      (∀ r ∈ rows, CanonicalRow r) →
      List.Pairwise (fun a b => evKey a ≤ evKey b)
        ((getEventsByDateAndType false (some rows) qs qe et).1)) ∧
    (getEventsByDateAndType false dbABC ⟨2025, 9, 5, 0, 0, 0, 0⟩
      ⟨2025, 9, 8, 0, 0, 0, 0⟩ none).1 = [eventA, eventB] ∧
    (getEventsByDateAndType false dbABC ⟨2025, 9, 5, 0, 0, 0, 0⟩
      ⟨2025, 9, 8, 0, 0, 0, 0⟩ (some "PARK")).1 = [] := by
  refine ⟨fun rows qs qe et ev hc => query_mem_iff rows qs qe et ev hc,
    fun rows qs qe et hc => query_pairwise rows qs qe et hc, by decide, by decide⟩

theorem claim4_witness :
    eventA ∈ (getEventsByDateAndType false (some [serializeRow eventA ⟨2025, 9, 5, 18, 0, 0, 0⟩])
        ⟨2025, 9, 5, 0, 0, 0, 0⟩ ⟨2025, 9, 8, 0, 0, 0, 0⟩ none).1 ↔
      ∃ r ∈ [serializeRow eventA ⟨2025, 9, 5, 18, 0, 0, 0⟩],
        inRange (String.mk (isoChars ⟨2025, 9, 5, 0, 0, 0, 0⟩))
          (String.mk (isoChars ⟨2025, 9, 8, 0, 0, 0, 0⟩)) r = true ∧
        typeMatches none r = true ∧ parseRow r = some eventA :=
  claim4_query_contract.1 [serializeRow eventA ⟨2025, 9, 5, 18, 0, 0, 0⟩] _ _ none eventA
    (by
      intro r hr
      obtain rfl : r = serializeRow eventA ⟨2025, 9, 5, 18, 0, 0, 0⟩ := by simpa using hr
      exact serializeRow_canonical _ _ (by decide) (by intro de h; simp [eventA] at h))

/-- An event whose start is absent (the value parse_bainbridge_events would
pass when its date parse fails, if construction succeeded). -/
def noStartEvent : Event :=
  { start_datetime := none, name := "x", event_type := "COMMUNITY", zip_code := "44023" }

/-- C2: no record with a missing or sentinel start is ever persisted.  In
the code as written this holds because (a) convert_llm_json_to_events
discards every item -- the Event call with the location keyword raises
TypeError inside the per-item try/except (its datetime.min sentinel for a
missing start therefore never reaches the store), (b)
parse_bainbridge_events never returns a non-empty event list -- the same
TypeError propagates out of the function before any list is returned, and
(c) write_to_db adds no row for an event whose start is None (building the
INSERT parameters raises AttributeError, which the generic except
swallows). -/
theorem claim2_no_missing_start_persisted :
    (∀ (items : List LlmItem) (page_url : String),
      convertLlmJsonToEvents items page_url = []) ∧
    (∀ (url : String) (parseDt : String → Option String) (children : List HtmlChild)
      (ev : Event) (evs : List Event),
        parseBainbridgeEvents url parseDt children ≠ .ok (ev :: evs)) ∧
    (∀ (fl : Option SqliteFail) (e : Event) (db : DbState), e.start_datetime = none →
      ((writeToDb fl e db).1).getD [] = db.getD []) := by
  refine ⟨convertLlm_empty, ?_, ?_⟩
  · intro url parseDt children ev evs h
    rcases parseBainbridge_result url parseDt children with h0 | h0 <;> rw [h0] at h <;>
      simp at h
  · intro fl e db hnone
    cases fl with
    | none => simp [writeToDb, hnone, ensureTable]
    | some st => cases st <;> simp [writeToDb, ensureTable]

theorem claim2_witness :
    ((writeToDb none noStartEvent (some [])).1).getD [] =
      ((some [] : DbState)).getD [] :=
  claim2_no_missing_start_persisted.2.2 none noStartEvent (some []) rfl

theorem charsLe_refl (x : List Char) : charsLe x x = true := by
  rw [charsLe_iff, (charsCmp_eq_iff x x).mpr rfl]
  simp

/-- C3: get_upcoming_friday returns the next Friday at local midnight; when
today is Friday the result is today (not seven days later), when today is
Saturday the result is six days later; the digest window runs from that
start to 8 days later, and the query's lower bound is inclusive (a stored
start equal to the window start passes the range test). -/
theorem claim3_upcoming_friday (today : PyDateTime) :
    (getUpcomingFriday today).hour = 0 ∧ (getUpcomingFriday today).minute = 0 ∧
    (getUpcomingFriday today).second = 0 ∧ (getUpcomingFriday today).microsecond = 0 ∧
    (getUpcomingFriday today).weekday = 4 ∧
    today.toordinal ≤ (getUpcomingFriday today).toordinal ∧
    (getUpcomingFriday today).toordinal < today.toordinal + 7 ∧
    (today.weekday = 4 → (getUpcomingFriday today).toordinal = today.toordinal) ∧
    (today.weekday = 5 → (getUpcomingFriday today).toordinal = today.toordinal + 6) ∧
    (digestWindow today).2 = addDays (getUpcomingFriday today) 8 ∧
    (∀ (s e : String) (r : Row), r.start_datetime = s → charsLe s.data e.data = true →
      inRange s e r = true) := by
  refine ⟨rfl, rfl, rfl, rfl, ?_, ?_, ?_, ?_, ?_, rfl, ?_⟩
  · unfold getUpcomingFriday PyDateTime.weekday
    dsimp only
    omega
  · unfold getUpcomingFriday PyDateTime.weekday
    dsimp only
    omega
  · unfold getUpcomingFriday PyDateTime.weekday
    dsimp only
    omega
  · unfold getUpcomingFriday PyDateTime.weekday
    dsimp only
    omega
  · unfold getUpcomingFriday PyDateTime.weekday
    dsimp only
    omega
  · intro s e r hs hle
    unfold inRange
    rw [hs, Bool.and_eq_true]
    exact ⟨charsLe_refl s.data, hle⟩

theorem claim3_witness :
    (getUpcomingFriday ⟨5, 13, 30, 0, 0⟩).toordinal = 5 ∧
      (getUpcomingFriday ⟨6, 13, 30, 0, 0⟩).toordinal = 6 + 6 :=
  ⟨(claim3_upcoming_friday ⟨5, 13, 30, 0, 0⟩).2.2.2.2.2.2.2.1 (by decide),
   (claim3_upcoming_friday ⟨6, 13, 30, 0, 0⟩).2.2.2.2.2.2.2.2.1 (by decide)⟩

/-- C5 counterexample: when opening the connection itself fails, the error
is caught and logged, but write_to_db then raises UnboundLocalError from
its finally block (conn was never bound), so the failure is not reported
non-fatally to the caller: the claim as stated fails on this path. -/
theorem claim5_counterexample :
    writeToDb (some .connect) wEvent (some []) =
      (some [], .raised "UnboundLocalError") := rfl

/-- C5 amended: write_to_db serializes every field into the flat events
table (timestamps as ISO text, booleans as the integers 1/0), creates the
table on first use, and any persistence error raised after the connection
is opened is caught and logged and the call returns normally with no row
added, so ingestion of remaining events continues; only a failure of
sqlite3.connect itself escapes (as an UnboundLocalError from the finally
block). -/
theorem claim5_insert_contract :
    (∀ (e : Event) (d : DateTime) (db : DbState), e.start_datetime = some d →
      (writeToDb none e db).1 = some (ensureTable db ++ [serializeRow e d]) ∧
        (writeToDb none e db).2 = .ok) ∧
    (∀ (e : Event) (d : DateTime),
      (serializeRow e d).name = e.name ∧
      (serializeRow e d).start_datetime = String.mk (isoChars d) ∧
      (serializeRow e d).end_datetime = e.end_datetime.map (fun de => String.mk (isoChars de)) ∧
      (serializeRow e d).url = e.url ∧
      (serializeRow e d).event_type = e.event_type ∧
      (serializeRow e d).zip_code = e.zip_code ∧
      (serializeRow e d).promoted = (if e.promoted then 1 else 0) ∧
      (serializeRow e d).notes = e.notes) ∧
    (∀ (e : Event) (db : DbState), (writeToDb none e db).1 ≠ none) ∧
    (∀ (st : SqliteFail) (e : Event) (db : DbState), st ≠ .connect →
      (writeToDb (some st) e db).2 = .ok ∧
        ((writeToDb (some st) e db).1).getD [] = db.getD []) := by
  refine ⟨?_, ?_, ?_, ?_⟩
  · intro e d db hd
    constructor <;> simp [writeToDb, hd]
  · intro e d
    exact ⟨rfl, rfl, rfl, rfl, rfl, rfl, rfl, rfl⟩
  · intro e db
    unfold writeToDb
    cases h : e.start_datetime <;> simp
  · intro st e db hst
    cases st with
    | connect => exact absurd rfl hst
    | createTable => exact ⟨rfl, rfl⟩
    | insertRow => exact ⟨rfl, by simp [writeToDb, ensureTable]⟩
    | commit => exact ⟨rfl, by simp [writeToDb, ensureTable]⟩

theorem claim5_witness :
    (writeToDb none wEvent (some [])).1 =
        some (ensureTable (some []) ++ [serializeRow wEvent ⟨2025, 9, 5, 18, 0, 0, 0⟩]) ∧
      (writeToDb none wEvent (some [])).2 = .ok :=
  claim5_insert_contract.1 wEvent ⟨2025, 9, 5, 18, 0, 0, 0⟩ (some []) rfl

/-- C6: get_events_by_date_and_type releases its connection and returns
normally on every path, but write_to_db does not: if sqlite3.connect
raises, conn is unbound when the finally block runs `if conn:` and an
UnboundLocalError escapes to the caller.  The claim is the evident intent
(the query function initializes conn = None first); the missing
initialization in write_to_db is the code bug. -/
theorem claim6_conn_release :
    (writeToDb (some .connect) wEvent (some [])).2 = .raised "UnboundLocalError" ∧
    (∀ (cf : Bool) (db : DbState) (sd ed : DateTime) (et : Option String),
      (getEventsByDateAndType cf db sd ed et).2 = .ok) := by
  refine ⟨rfl, ?_⟩
  intro cf db sd ed et
  unfold getEventsByDateAndType
  cases cf
  · cases db <;> simp
  · simp

/-- C7: Event.__init__ accepts exactly the eight parameters
(start_datetime, name, event_type, zip_code, end_datetime, url, promoted,
notes); a construction that passes the spec's optional location keyword --
as several adapters in the repository do -- raises TypeError instead of
succeeding, so no record ever carries a location value. -/
theorem claim7_location_kwarg :
    (∀ v : Event, eventInitKw
      ["start_datetime", "name", "event_type", "zip_code", "location"] v =
        .error "TypeError") ∧
    (∀ v : Event, eventInitKw
      ["start_datetime", "name", "event_type", "zip_code", "end_datetime", "url",
       "promoted", "notes"] v = .ok v) := by
  constructor <;> intro v <;> rfl

/-- A bare candidate event carrying only a name, as fed to the keyword
filter. -/
def plainEvent (n : String) : Event :=
  { start_datetime := none, name := n, event_type := "", zip_code := "" }

/-- C8 counterexample: the filter lower-cases only the event name, not the
keyword, so it is not case-insensitive substring matching as claimed: the
keyword "A" is a case-insensitive substring of the name "a" (the spec-side
test accepts it) but the code filters the event out. -/
theorem claim8_counterexample :
    kenstonFilter ["A"] [plainEvent "a"] = [] ∧
      specCaseInsensitiveKeep "A" "a" = true := by
  constructor <;> rfl

/-- C8 amended: the filter keeps exactly the candidates whose lower-cased
name contains at least one keyword verbatim (keywords are matched
case-sensitively against the lowered name; with the configured all-lowercase
keywords this is case-insensitive in the event name), and tags survivors
with the SCHOOL type and the 44023 zip; on the spec's example names with
keywords theater/play/concert, exactly the first and third survive. -/
theorem claim8_keyword_filter :
    (∀ (filters : List String) (events : List Event),
      kenstonFilter filters events =
        (events.filter (fun e => anyWordIn (pyLower e.name) filters)).map
          (fun e => { e with event_type := "SCHOOL", zip_code := "44023" })) ∧
    kenstonFilter ["theater", "play", "concert"]
        [plainEvent "Fall Theater Night", plainEvent "Board Meeting",
         plainEvent "Spring Concert"] =
      [{ plainEvent "Fall Theater Night" with event_type := "SCHOOL", zip_code := "44023" },
       { plainEvent "Spring Concert" with event_type := "SCHOOL", zip_code := "44023" }] := by
  constructor
  · intro filters events
    induction events with
    | nil => rfl
    | cons e es ih =>
      unfold kenstonFilter
      rw [List.filter_cons]
      by_cases h : anyWordIn (pyLower e.name) filters
      · rw [if_pos h, if_pos h, List.map_cons, ih]
      · rw [if_neg h, if_neg h, ih]
  · decide

/-- C9 (implicit): querying with the empty string as event_type behaves
exactly like passing no event_type, because the SQL type filter is added
only when the argument is truthy: an empty-string category silently
disables filtering. -/
theorem claim9_empty_type_filter (cf : Bool) (db : DbState) (sd ed : DateTime) :
    getEventsByDateAndType cf db sd ed (some "") =
      getEventsByDateAndType cf db sd ed none := by
  have h : typeMatches (some "") = typeMatches none := by
    funext r
    simp [typeMatches]
  unfold getEventsByDateAndType
  rw [h]

/-- C10 (implicit): on a database whose events table does not exist yet,
the range query and the distinct-category listing both catch the database
error and return an empty list, and the digest generated over such a store
is the bare html shell. -/
theorem claim10_uninitialized_store :
    (∀ (cf : Bool) (sd ed : DateTime) (et : Option String),
      getEventsByDateAndType cf none sd ed et = ([], .ok)) ∧
    getUniqueEventTypes none = [] ∧
    (∀ ws we : DateTime, digestHtml none ws we = "<html>" ++ "</html>") := by
  refine ⟨?_, rfl, ?_⟩
  · intro cf sd ed et
    unfold getEventsByDateAndType
    cases cf <;> rfl
  · intro ws we
    rfl
